import Mathlib

/-!
Verification of the tidal migration engine (migration.go and the registry)
against its specification.  The Go source is shallowly embedded: pure parsing
helpers become Lean functions, the process-wide registry becomes explicit list
passing, and the transactional executor becomes a deterministic interpreter
over an environment that supplies the outcome of every database call.
-/

namespace Tidal

/-- Character class matched by the regexp atom `\d` in `fnamere` (ASCII digits). -/
def isDigitChar (c : Char) : Bool := c.isDigit

/-- Character class matched by the regexp atom `[\w\d_-]` in `fnamere`:
word characters (ASCII letters, digits, underscore) together with hyphen. -/
def isWordChar (c : Char) : Bool := c.isAlphanum || c == '_' || c == '-'

/-- Matching of the anchored regexp `^(\d+)[_-]([\w\d_-]+)\.sql$` declared as
`fnamere` in migration.go, returning the two capture groups (digit prefix and
word segment) on success.  The decomposition is unique: the character after the
digit group must be an underscore or hyphen, neither of which is a digit, so the
digit group is exactly the maximal leading digit run, and word characters never
include a dot, so the word group is exactly what precedes the final ".sql". -/
def fnameSubmatch (s : String) : Option (String × String) :=
  let cs := s.toList
  let digits := cs.takeWhile isDigitChar
  let rest := cs.dropWhile isDigitChar
  match rest with
  | [] => none
  | sep :: tail =>
    if digits.isEmpty then none
    else if sep == '_' || sep == '-' then
      let wlen := tail.length - 4
      let word := tail.take wlen
      let suffix := tail.drop wlen
      if suffix = ['.', 's', 'q', 'l'] ∧ word ≠ [] ∧ word.all isWordChar then
        some (String.mk digits, String.mk word)
      else none
    else none

/-- MatchString of `fnamere` on an input string. -/
def fnameMatches (s : String) : Bool := (fnameSubmatch s).isSome

/-- Numeric value of a digit string (most significant digit first). -/
def digitsVal (l : List Char) : Nat := l.foldl (fun acc c => acc * 10 + (c.toNat - 48)) 0

/-- Largest value representable by Go's 64-bit signed int. -/
def maxInt64 : Int := 9223372036854775807

/-- Model of Go strconv.Atoi: on a nonempty all-digit string it yields the
numeric value, except that values beyond the 64-bit signed integer range
produce a range error (strconv.ErrRange); any other shape is a syntax error.
Only nonempty digit strings reach it from parseFilename. -/
def goAtoi (s : String) : Except String Int :=
  let cs := s.toList
  if cs ≠ [] ∧ cs.all isDigitChar then
    if (digitsVal cs : Int) ≤ maxInt64 then .ok (digitsVal cs : Int)
    else .error "value out of range"
  else .error "invalid syntax"

/-- Model of strings.Replace(w, "_", " ", -1): every underscore becomes a space. -/
def replaceUnderscores (w : String) : String :=
  String.mk (w.toList.map (fun c => if c = '_' then ' ' else c))

/-- Direction of a migration execution. -/
inductive Direction
  | up
  | down
deriving DecidableEq

/-- Structured rendering of the error values produced by migration.go; each
constructor records the parameters interpolated into the corresponding
fmt.Errorf format string (or carries a raw cause coming from a collaborator). -/
inductive TidalError
  /-- could not parse %q as a migration filename -/
  | formatError (identifier : String)
  /-- could not parse %q to revision number: %s -/
  | revisionParseError (digits : String) (cause : String)
  /-- descriptor data does not contain required header information -/
  | headerMissing
  /-- cannot register migration with revision %d: revision already exists -/
  | duplicateRevision (revision : Int)
  /-- revision %d was not registered -/
  | unregistered (revision : Int)
  /-- could not begin transaction to apply (or rollback) revision %d: %s -/
  | beginFailure (direction : Direction) (revision : Int) (cause : String)
  /-- could not parse revision %d up (or down) sql: %s -/
  | sqlSectionError (direction : Direction) (revision : Int) (cause : String)
  /-- could not exec revision %d up (or down): %s -/
  | execFailure (direction : Direction) (revision : Int) (cause : String)
  /-- could not update migration status of revision %d: %s -/
  | statusUpdateFailure (revision : Int) (cause : String)
  /-- an error from a collaborator returned without wrapping -/
  | rawError (cause : String)
deriving DecidableEq

/-- Result of a Go call in this embedding: a normal return value, a non-nil
error return, or a propagating runtime panic. -/
inductive GoResult (α : Type)
  | ok (value : α)
  | error (e : TidalError)
  | panicked (msg : String)
deriving DecidableEq

instance {ε α : Type} [DecidableEq ε] [DecidableEq α] : DecidableEq (Except ε α) := fun x y =>
  match x, y with
  | .ok a, .ok b => if h : a = b then .isTrue (by rw [h]) else .isFalse (by simp [h])
  | .error a, .error b => if h : a = b then .isTrue (by rw [h]) else .isFalse (by simp [h])
  | .ok _, .error _ => .isFalse (by simp)
  | .error _, .ok _ => .isFalse (by simp)

/-- The descriptor implementation (NewDescriptor and the Descriptor method set)
is not among the given sources; migration.go only consumes its accessors.  A
descriptor is therefore abstracted by the results those accessors return:
info models Descriptor.Info, up and down model Descriptor.Up and
Descriptor.Down, and pkg models Descriptor.Package. -/
structure Descriptor where
  info : Except String (String × Int)
  up : Except String String
  down : Except String String
  pkg : Except String String
deriving DecidableEq

/-- The Migration struct of migration.go.  Timestamps are modelled as integers
(time.Time values are never inspected by the embedded code, only stored or
passed along). -/
structure Migration where
  Revision : Int
  Name : String
  Active : Bool
  Applied : Int
  Created : Int
  descriptor : Descriptor
  dbsync : Bool
deriving DecidableEq

/-- parseFilename from migration.go.  FindStringSubmatch returns nil on a
non-matching input and the Go code indexes groups[2] unconditionally, so the
non-matching case is a runtime panic (index out of range), not an error
return; callers are expected to have checked MatchString first. -/
def parseFilename (filename : String) : GoResult (String × Int) :=
  match fnameSubmatch filename with
  | none => .panicked "runtime error: index out of range"
  | some (digits, word) =>
    let name := replaceUnderscores word
    match goAtoi digits with
    | .error cause => .error (.revisionParseError digits cause)
    | .ok revision => .ok (name, revision)

/-- Environment for Open: outcome of the os.Open call and of NewDescriptor
(the latter's implementation is not among the given sources, so its result is
an oracle input). -/
structure OpenEnv where
  openFileResult : Except String Unit
  newDescriptorResult : Except String Descriptor

/-- Open from migration.go, applied to the base filename of the path (the Go
code first takes filepath.Base(path); the claims quantify over that base
identifier).  It checks MatchString before calling parseFilename, parses the
components, then opens the file and builds the descriptor; failures of the two
collaborator steps are returned without wrapping. -/
def Open (filename : String) (env : OpenEnv) : GoResult Migration :=
  if fnameMatches filename = false then .error (.formatError filename)
  else
    match parseFilename filename with
    | .panicked p => .panicked p
    | .error e => .error e
    | .ok (name, revision) =>
      match env.openFileResult with
      | .error cause => .error (.rawError cause)
      | .ok _ =>
        match env.newDescriptorResult with
        | .error cause => .error (.rawError cause)
        | .ok d => .ok ⟨revision, name, false, 0, 0, d, false⟩

/-- SQL parameter values as passed to tx.Exec by migration.go. -/
inductive SQLValue
  | vBool (b : Bool)
  | vTime (t : Int)
  | vInt (i : Int)
deriving DecidableEq

/-- Positional placeholders referenced by a SQL text: every occurrence of a
dollar sign followed by at least one digit contributes the number it spells.
Digit characters themselves never start a placeholder, so rescanning the tail
is harmless and keeps the recursion structural. -/
def placeholdersAux : List Char → List Nat
  | [] => []
  | c :: rest =>
    if c = '$' then
      let ds := rest.takeWhile isDigitChar
      if ds.isEmpty then placeholdersAux rest
      else digitsVal ds :: placeholdersAux rest
    else placeholdersAux rest

/-- Placeholders referenced by a SQL string. -/
def placeholders (s : String) : List Nat := placeholdersAux s.toList

/-- Largest positional placeholder referenced by a SQL string, 0 if none. -/
def maxPlaceholder (s : String) : Nat := (placeholders s).foldr max 0

/-- Value bound to placeholder number n by an argument list: postgres-style
binding maps the k-th supplied argument to placeholder k.  Returns none when
the referenced parameter was not supplied. -/
def paramBinding (args : List SQLValue) (n : Nat) : Option SQLValue := args[n - 1]?

/-- Scan for the first occurrence of the text revision equals dollar and
return the placeholder number spelled directly after it. -/
def revisionParamIndex : List Char → Option Nat
  | [] => none
  | c :: rest =>
    if (c :: rest).take 10 = ['r', 'e', 'v', 'i', 's', 'i', 'o', 'n', '=', '$'] then
      let ds := ((c :: rest).drop 10).takeWhile isDigitChar
      if ds.isEmpty then none else some (digitsVal ds)
    else revisionParamIndex rest

/-- The argument bound to the WHERE-clause revision parameter of a bookkeeping
UPDATE: the placeholder index written directly after the text revision equals
dollar, resolved against the supplied argument list. -/
def boundRevisionParam (sql : String) (args : List SQLValue) : Option SQLValue :=
  match revisionParamIndex sql.toList with
  | none => none
  | some n => paramBinding args n

/-- The bookkeeping statement executed by upTx for application migrations
(literal string from migration.go line 112). -/
def upStatusSQL : String := "UPDATE migrations SET active=$1, applied=$2 WHERE revision=$3"

/-- The bookkeeping statement executed by downTx for application migrations
(literal string from migration.go line 169). -/
def downStatusSQL : String := "UPDATE migrations SET active=$1, applied=NULL WHERE revision=$3"

/-- The arguments upTx passes with the bookkeeping statement:
true, time.Now().UTC(), m.Revision. -/
def upStatusArgs (now revision : Int) : List SQLValue :=
  [SQLValue.vBool true, SQLValue.vTime now, SQLValue.vInt revision]

/-- The arguments downTx passes with the bookkeeping statement:
false, m.Revision. -/
def downStatusArgs (revision : Int) : List SQLValue :=
  [SQLValue.vBool false, SQLValue.vInt revision]

/-- Outcome of one tx.Exec call as decided by the database environment. -/
inductive ExecOutcome
  | success
  | failure (cause : String)
  | panics (msg : String)
deriving DecidableEq

/-- Environment supplying the outcome of every database interaction in one
Up or Down call: whether conn.Begin fails, the outcome of each tx.Exec
(keyed by statement text and arguments), whether tx.Commit fails, the error
tx.Rollback itself would report (the Go code ignores it), and the value of
time.Now().UTC(). -/
structure DBEnv where
  beginFails : Option String
  exec : String → List SQLValue → ExecOutcome
  commitFails : Option String
  rollbackFails : Option String
  now : Int

/-- Result of running upTx or downTx: the returned error or panic, together
with the trace of statements handed to tx.Exec (including a final statement
whose execution failed or panicked). -/
structure TxRun where
  result : GoResult Unit
  stmts : List (String × List SQLValue)
deriving DecidableEq

/-- upTx from migration.go: parse the up SQL from the descriptor, exec it, and
for revision > 0 exec the bookkeeping update with arguments
(true, now, revision) inside the same transaction. -/
def upTx (m : Migration) (env : DBEnv) : TxRun :=
  match m.descriptor.up with
  | .error cause => ⟨.error (.sqlSectionError .up m.Revision cause), []⟩
  | .ok sqlText =>
    match env.exec sqlText [] with
    | .failure cause => ⟨.error (.execFailure .up m.Revision cause), [(sqlText, [])]⟩
    | .panics p => ⟨.panicked p, [(sqlText, [])]⟩
    | .success =>
      if m.Revision > 0 then
        match env.exec upStatusSQL (upStatusArgs env.now m.Revision) with
        | .failure cause =>
          ⟨.error (.statusUpdateFailure m.Revision cause),
            [(sqlText, []), (upStatusSQL, upStatusArgs env.now m.Revision)]⟩
        | .panics p =>
          ⟨.panicked p, [(sqlText, []), (upStatusSQL, upStatusArgs env.now m.Revision)]⟩
        | .success =>
          ⟨.ok (), [(sqlText, []), (upStatusSQL, upStatusArgs env.now m.Revision)]⟩
      else ⟨.ok (), [(sqlText, [])]⟩

/-- downTx from migration.go: parse the down SQL, exec it, and for
revision > 0 exec the bookkeeping update with arguments (false, revision);
note the statement text references placeholder 3 while only two arguments are
supplied. -/
def downTx (m : Migration) (env : DBEnv) : TxRun :=
  match m.descriptor.down with
  | .error cause => ⟨.error (.sqlSectionError .down m.Revision cause), []⟩
  | .ok sqlText =>
    match env.exec sqlText [] with
    | .failure cause => ⟨.error (.execFailure .down m.Revision cause), [(sqlText, [])]⟩
    | .panics p => ⟨.panicked p, [(sqlText, [])]⟩
    | .success =>
      if m.Revision > 0 then
        match env.exec downStatusSQL (downStatusArgs m.Revision) with
        | .failure cause =>
          ⟨.error (.statusUpdateFailure m.Revision cause),
            [(sqlText, []), (downStatusSQL, downStatusArgs m.Revision)]⟩
        | .panics p =>
          ⟨.panicked p, [(sqlText, []), (downStatusSQL, downStatusArgs m.Revision)]⟩
        | .success =>
          ⟨.ok (), [(sqlText, []), (downStatusSQL, downStatusArgs m.Revision)]⟩
      else ⟨.ok (), [(sqlText, [])]⟩

/-- Final state of the transaction opened by an Up or Down call. -/
inductive TxFinal
  | neverOpened
  | committed
  | commitFailed
  | rolledBack
deriving DecidableEq

/-- Observable outcome of one Up or Down call: the value returned to the
caller (or the panic that propagated), the final transaction state, the
statements executed inside the transaction, and the migration record as it
stands after the call (the methods never write to the receiver). -/
structure CallResult where
  result : GoResult Unit
  tx : TxFinal
  stmts : List (String × List SQLValue)
  migration : Migration
deriving DecidableEq

/-- Up from migration.go: begin a transaction (failure is returned wrapped and
nothing else happens), run upTx, then the deferred handler: on panic roll back
and re-panic; on error roll back, discarding the rollback's own error; on
success commit, returning the commit's error if any. -/
def Up (m : Migration) (env : DBEnv) : CallResult :=
  match env.beginFails with
  | some cause => ⟨.error (.beginFailure .up m.Revision cause), .neverOpened, [], m⟩
  | none =>
    let run := upTx m env
    match run.result with
    | .panicked p => ⟨.panicked p, .rolledBack, run.stmts, m⟩
    | .error e => ⟨.error e, .rolledBack, run.stmts, m⟩
    | .ok _ =>
      match env.commitFails with
      | some cause => ⟨.error (.rawError cause), .commitFailed, run.stmts, m⟩
      | none => ⟨.ok (), .committed, run.stmts, m⟩

/-- Down from migration.go: identical structure to Up, running downTx. -/
def Down (m : Migration) (env : DBEnv) : CallResult :=
  match env.beginFails with
  | some cause => ⟨.error (.beginFailure .down m.Revision cause), .neverOpened, [], m⟩
  | none =>
    let run := downTx m env
    match run.result with
    | .panicked p => ⟨.panicked p, .rolledBack, run.stmts, m⟩
    | .error e => ⟨.error e, .rolledBack, run.stmts, m⟩
    | .ok _ =>
      match env.commitFails with
      | some cause => ⟨.error (.rawError cause), .commitFailed, run.stmts, m⟩
      | none => ⟨.ok (), .committed, run.stmts, m⟩

/-- Replace the rollback-failure component of an environment, leaving all
other components untouched; used to state that Up and Down never consult it. -/
def setRollbackFails (env : DBEnv) (r : Option String) : DBEnv :=
  ⟨env.beginFails, env.exec, env.commitFails, r, env.now⟩

/-- The loop of Go's sort.Search: binary search on the half-open interval
from i to j for the frontier of the predicate f.  The midpoint arithmetic
int(uint(i+j) >> 1) is exactly floor division by two. -/
def sortSearchAux (f : Nat → Bool) (i j : Nat) : Nat :=
  if h : i < j then
    if f ((i + j) / 2) then sortSearchAux f i ((i + j) / 2)
    else sortSearchAux f ((i + j) / 2 + 1) j
  else i
termination_by j - i
decreasing_by
  · omega
  · omega

/-- Go's sort.Search(n, f): the smallest index below n at which f holds,
assuming f is monotone, or n when there is none. -/
def sortSearch (n : Nat) (f : Nat → Bool) : Nat := sortSearchAux f 0 n

/-- The closure passed to sort.Search in Register and Successors:
migrations[k].Revision >= m.Revision, written with the argument order of a
less-or-equal.  sort.Search only ever evaluates it at indices below the
length, so the out-of-range value is unobservable; it is set to true, which
keeps the predicate monotone on a sorted registry. -/
def registerPred (l : List Migration) (rev : Int) (k : Nat) : Bool :=
  if h : k < l.length then decide (rev ≤ l[k].Revision) else true

/-- The index computed by the sort.Search call of Register and Successors. -/
def searchIdx (l : List Migration) (rev : Int) : Nat :=
  sortSearch l.length (registerPred l rev)

/-- Register from the registry source: binary-search the insertion index, fail
with the duplicate-revision error when that index holds an equal revision, and
otherwise insert there (append one zero element, shift the suffix right, and
overwrite index i — equivalently take i, then m, then drop i).  The pair
returned is (error, state of the global migrations slice after the call); the
error return leaves the slice untouched. -/
def Register (l : List Migration) (m : Migration) : Option TidalError × List Migration :=
  match l[searchIdx l m.Revision]? with
  | some o =>
    if o.Revision = m.Revision then (some (.duplicateRevision m.Revision), l)
    else (none, l.take (searchIdx l m.Revision) ++ m :: l.drop (searchIdx l m.Revision))
  | none => (none, l.take (searchIdx l m.Revision) ++ m :: l.drop (searchIdx l m.Revision))

/-- RegisterDescriptor from the registry source: wrap the data, read the
identifying header through Info, reject an empty identifier, parse the
filename (note: without a prior MatchString check), and register. -/
def RegisterDescriptor (l : List Migration) (data : Descriptor) :
    GoResult (List Migration) :=
  match data.info with
  | .error cause => .error (.rawError cause)
  | .ok (filename, _) =>
    if filename = "" then .error .headerMissing
    else
      match parseFilename filename with
      | .panicked p => .panicked p
      | .error e => .error e
      | .ok (name, revision) =>
        let m : Migration := ⟨revision, name, false, 0, 0, data, false⟩
        match Register l m with
        | (some e, _) => .error e
        | (none, l2) => .ok l2

/-- The range loop of Predecessors: stop with the count so far on the first
entry whose revision equals the target, fail on the first entry whose revision
exceeds it, and otherwise count the entry and continue; falling off the end
yields the full length. -/
def predecessorsLoop (rev : Int) : List Migration → Except TidalError Nat
  | [] => .ok 0
  | o :: rest =>
    if rev = o.Revision then .ok 0
    else if o.Revision > rev then .error (.unregistered rev)
    else
      match predecessorsLoop rev rest with
      | .error e => .error e
      | .ok n => .ok (n + 1)

/-- Predecessors from migration.go: an empty registry fails immediately; the
loop then counts entries before the match; finally, when the loop ran off the
end (count equals the length) and the last entry does not match, fail.  The
branch reading the last entry is only reached with a nonempty registry, so the
out-of-range alternative of the lookup is dead code. -/
def Predecessors (l : List Migration) (m : Migration) : Except TidalError Nat :=
  if l.length = 0 then .error (.unregistered m.Revision)
  else
    match predecessorsLoop m.Revision l with
    | .error e => .error e
    | .ok n =>
      if n = l.length then
        match l[n - 1]? with
        | some last =>
          if last.Revision ≠ m.Revision then .error (.unregistered m.Revision) else .ok n
        | none => .ok n
      else .ok n

/-- Successors from migration.go: binary-search the first index whose revision
is at least the target; when that index is in range and matches exactly,
return the number of entries after it, and otherwise fail. -/
def Successors (l : List Migration) (m : Migration) : Except TidalError Nat :=
  match l[searchIdx l m.Revision]? with
  | some o =>
    if o.Revision = m.Revision then
      if searchIdx l m.Revision + 1 = l.length then .ok 0
      else .ok (l.length - (searchIdx l m.Revision + 1))
    else .error (.unregistered m.Revision)
  | none => .error (.unregistered m.Revision)

/-- The registry invariant: revisions strictly ascending along the list. -/
abbrev RegSorted (l : List Migration) : Prop :=
  l.Pairwise (fun a b => a.Revision < b.Revision)

/-- Folding a sequence of Register calls over the empty initial registry,
keeping the slice state of each call. -/
def registerAll (ms : List Migration) : List Migration :=
  ms.foldl (fun s x => (Register s x).2) []

/-! Specification of the embedded sort.Search loop, and consequences for the
registry operations built on it. -/

theorem sortSearchAux_spec (f : Nat → Bool)
    (mono : ∀ a b, a ≤ b → f a = true → f b = true) :
    ∀ fuel i j, j - i ≤ fuel → i ≤ j →
      i ≤ sortSearchAux f i j ∧ sortSearchAux f i j ≤ j ∧
        (∀ k, i ≤ k → k < sortSearchAux f i j → f k = false) ∧
        (sortSearchAux f i j < j → f (sortSearchAux f i j) = true) := by
  intro fuel
  induction fuel with
  | zero =>
    intro i j hfuel hij
    have hji : i = j := by omega
    subst hji
    unfold sortSearchAux
    simp
    intro k hk1 hk2
    exact absurd hk2 (by omega)
  | succ n ih =>
    intro i j hfuel hij
    by_cases h : i < j
    · have hm1 : i ≤ (i + j) / 2 := by omega
      have hm2 : (i + j) / 2 < j := by omega
      unfold sortSearchAux
      rw [dif_pos h]
      by_cases hfm : f ((i + j) / 2) = true
      · rw [if_pos hfm]
        obtain ⟨h1, h2, h3, h4⟩ := ih i ((i + j) / 2) (by omega) hm1
        refine ⟨h1, by omega, h3, fun _ => ?_⟩
        rcases lt_or_eq_of_le h2 with hlt | heq
        · exact h4 hlt
        · rw [heq]; exact hfm
      · rw [if_neg hfm]
        have hfm' : f ((i + j) / 2) = false := by
          cases hv : f ((i + j) / 2)
          · rfl
          · exact absurd hv hfm
        obtain ⟨h1, h2, h3, h4⟩ := ih ((i + j) / 2 + 1) j (by omega) (by omega)
        refine ⟨by omega, h2, ?_, h4⟩
        intro k hk1 hk2
        by_cases hk3 : (i + j) / 2 + 1 ≤ k
        · exact h3 k hk3 hk2
        · have hk4 : k ≤ (i + j) / 2 := by omega
          cases hv : f k
          · rfl
          · exact absurd (mono k ((i + j) / 2) hk4 hv) hfm
    · have hji : i = j := by omega
      subst hji
      unfold sortSearchAux
      simp
      intro k hk1 hk2
      exact absurd hk2 (by omega)

theorem sortSearch_spec (n : Nat) (f : Nat → Bool)
    (mono : ∀ a b, a ≤ b → f a = true → f b = true) :
    sortSearch n f ≤ n ∧ (∀ k, k < sortSearch n f → f k = false) ∧
      (sortSearch n f < n → f (sortSearch n f) = true) := by
  obtain ⟨h1, h2, h3, h4⟩ :=
    sortSearchAux_spec f mono n 0 n (by omega) (Nat.zero_le n)
  exact ⟨h2, fun k hk => h3 k (Nat.zero_le k) hk, h4⟩

/-- On a sorted registry the search predicate is monotone. -/
theorem registerPred_mono (l : List Migration) (rev : Int) (hs : RegSorted l) :
    ∀ a b, a ≤ b → registerPred l rev a = true → registerPred l rev b = true := by
  intro a b hab ha
  unfold registerPred at ha ⊢
  by_cases hb : b < l.length
  · rw [dif_pos hb]
    have ha' : a < l.length := lt_of_le_of_lt hab hb
    rw [dif_pos ha'] at ha
    have hle : rev ≤ l[a].Revision := of_decide_eq_true ha
    rcases lt_or_eq_of_le hab with hlt | heq
    · have hrr : l[a].Revision < l[b].Revision :=
        List.pairwise_iff_getElem.mp hs a b ha' hb hlt
      exact decide_eq_true (le_of_lt (lt_of_le_of_lt hle hrr))
    · subst heq
      exact decide_eq_true hle
  · rw [dif_neg hb]

/-- Bundled facts about the index returned by the sort.Search call shared by
Register and Successors, over a sorted registry: every entry strictly below it
has revision below the target, and the entry at it (when in range) has
revision at least the target. -/
theorem searchIndex_spec (l : List Migration) (rev : Int) (hs : RegSorted l) :
    searchIdx l rev ≤ l.length ∧
      (∀ k (hk : k < l.length), k < searchIdx l rev → l[k].Revision < rev) ∧
      (∀ hi : searchIdx l rev < l.length, rev ≤ l[searchIdx l rev].Revision) := by
  obtain ⟨h1, h2, h3⟩ :=
    sortSearch_spec l.length (registerPred l rev) (registerPred_mono l rev hs)
  unfold searchIdx
  set idx := sortSearch l.length (registerPred l rev) with hidx
  refine ⟨h1, ?_, ?_⟩
  · intro k hk hki
    have hf := h2 k hki
    unfold registerPred at hf
    rw [dif_pos hk] at hf
    have := of_decide_eq_false hf
    omega
  · intro hi
    have hf := h3 hi
    unfold registerPred at hf
    rw [dif_pos hi] at hf
    exact of_decide_eq_true hf

/-- Registering a revision already present on a sorted registry returns the
duplicate error and leaves the slice untouched. -/
theorem Register_duplicate (l : List Migration) (m : Migration) (hs : RegSorted l)
    (hmem : m.Revision ∈ l.map Migration.Revision) :
    Register l m = (some (.duplicateRevision m.Revision), l) := by
  obtain ⟨a, hal, har⟩ := List.mem_map.mp hmem
  obtain ⟨k, hk, hka⟩ := List.mem_iff_getElem.mp hal
  have hkrev : l[k].Revision = m.Revision := by rw [hka, har]
  obtain ⟨h1, h2, h3⟩ := searchIndex_spec l m.Revision hs
  have hik : searchIdx l m.Revision ≤ k := by
    by_contra hc
    have := h2 k hk (by omega)
    omega
  have hil : searchIdx l m.Revision < l.length := lt_of_le_of_lt hik hk
  have hgei : m.Revision ≤ l[searchIdx l m.Revision].Revision := h3 hil
  have hlei : l[searchIdx l m.Revision].Revision ≤ m.Revision := by
    rcases lt_or_eq_of_le hik with hlt | heq
    · have := List.pairwise_iff_getElem.mp hs (searchIdx l m.Revision) k hil hk hlt
      omega
    · subst heq
      exact le_of_eq hkrev
  have heqr : l[searchIdx l m.Revision].Revision = m.Revision := le_antisymm hlei hgei
  unfold Register
  rw [List.getElem?_eq_getElem hil]
  simp [heqr]

/-- Inserting at an index whose strict prefix is strictly below the new
revision and whose suffix is strictly above preserves the registry invariant. -/
theorem insert_sorted (l : List Migration) (m : Migration) (hs : RegSorted l)
    (i : Nat) (hle : i ≤ l.length)
    (hbelow : ∀ k (hk : k < l.length), k < i → l[k].Revision < m.Revision)
    (habove : ∀ hi : i < l.length, m.Revision < l[i].Revision) :
    RegSorted (l.take i ++ m :: l.drop i) := by
  show List.Pairwise (fun a b => a.Revision < b.Revision) (l.take i ++ m :: l.drop i)
  rw [List.pairwise_append]
  refine ⟨List.Pairwise.sublist (List.take_sublist i l) hs, ?_, ?_⟩
  · rw [List.pairwise_cons]
    refine ⟨?_, List.Pairwise.sublist (List.drop_sublist i l) hs⟩
    intro b hb
    obtain ⟨t, ht, hbt⟩ := List.mem_iff_getElem.mp hb
    have ht' : i + t < l.length := by
      have := List.length_drop i l
      omega
    have hit : i < l.length := by omega
    have hstep : l[i].Revision ≤ l[i + t].Revision := by
      rcases Nat.eq_zero_or_pos t with h0 | hpos
      · subst h0
        simp
      · exact le_of_lt (List.pairwise_iff_getElem.mp hs i (i + t) hit ht' (by omega))
    have hub : (l.drop i)[t] = l[i + t] := List.getElem_drop l
    rw [← hbt, hub]
    exact lt_of_lt_of_le (habove hit) hstep
  · intro a ha b hb
    obtain ⟨k, hk, hak⟩ := List.mem_iff_getElem.mp ha
    have hk' : k < i ∧ k < l.length := by
      have := List.length_take i l
      omega
    have hta : (l.take i)[k] = l[k] := List.getElem_take l
    rcases List.mem_cons.mp hb with hbm | hbd
    · subst hbm
      rw [← hak, hta]
      exact hbelow k hk'.2 hk'.1
    · obtain ⟨t, ht, hbt⟩ := List.mem_iff_getElem.mp hbd
      have ht' : i + t < l.length := by
        have := List.length_drop i l
        omega
      have hub : (l.drop i)[t] = l[i + t] := List.getElem_drop l
      rw [← hak, hta, ← hbt, hub]
      exact List.pairwise_iff_getElem.mp hs k (i + t) hk'.2 ht' (by omega)

/-- Registering an absent revision on a sorted registry succeeds and inserts
at the searched index. -/
theorem Register_insert (l : List Migration) (m : Migration) (hs : RegSorted l)
    (habs : m.Revision ∉ l.map Migration.Revision) :
    Register l m =
      (none, l.take (searchIdx l m.Revision) ++ m :: l.drop (searchIdx l m.Revision)) := by
  obtain ⟨h1, h2, h3⟩ := searchIndex_spec l m.Revision hs
  unfold Register
  rcases lt_or_eq_of_le h1 with hi | hi
  · rw [List.getElem?_eq_getElem hi]
    have hne : l[searchIdx l m.Revision].Revision ≠ m.Revision := by
      intro hcon
      exact habs (List.mem_map.mpr ⟨l[searchIdx l m.Revision], List.getElem_mem hi, hcon⟩)
    simp [hne]
  · rw [List.getElem?_eq_none (le_of_eq hi.symm)]

/-- The registry stays sorted across any single Register call. -/
theorem Register_preserves_sorted (l : List Migration) (m : Migration)
    (hs : RegSorted l) : RegSorted (Register l m).2 := by
  by_cases hmem : m.Revision ∈ l.map Migration.Revision
  · rw [Register_duplicate l m hs hmem]
    exact hs
  · rw [Register_insert l m hs hmem]
    obtain ⟨h1, h2, h3⟩ := searchIndex_spec l m.Revision hs
    refine insert_sorted l m hs _ h1 h2 ?_
    intro hi
    have hge := h3 hi
    have hne : l[searchIdx l m.Revision].Revision ≠ m.Revision := by
      intro hcon
      exact hmem (List.mem_map.mpr ⟨l[searchIdx l m.Revision], List.getElem_mem hi, hcon⟩)
    omega

/-- The successful insertion is a permutation of consing the new entry. -/
theorem Register_insert_perm (l : List Migration) (m : Migration) (hs : RegSorted l)
    (habs : m.Revision ∉ l.map Migration.Revision) :
    (Register l m).2.Perm (m :: l) := by
  rw [Register_insert l m hs habs]
  refine List.Perm.trans List.perm_middle ?_
  rw [List.take_append_drop]

/-- Any sequence of Register calls starting from the empty registry leaves it
sorted. -/
theorem registerAll_sorted (ms : List Migration) : RegSorted (registerAll ms) := by
  unfold registerAll
  suffices h : ∀ (ns : List Migration) (l : List Migration), RegSorted l →
      RegSorted (ns.foldl (fun s x => (Register s x).2) l) by
    exact h ms [] List.Pairwise.nil
  intro ns
  induction ns with
  | nil =>
    intro l hl
    exact hl
  | cons a rest ih =>
    intro l hl
    exact ih _ (Register_preserves_sorted l a hl)

/-- The Predecessors loop stops with the exact index of a present revision on
a sorted registry. -/
theorem predecessorsLoop_at (rev : Int) :
    ∀ (l : List Migration), RegSorted l → ∀ (i : Nat) (hi : i < l.length),
      rev = l[i].Revision → predecessorsLoop rev l = .ok i := by
  intro l
  induction l with
  | nil =>
    intro _ i hi
    simp at hi
  | cons a rest ih =>
    intro hs i hi hrev
    match i with
    | 0 =>
      have hrev0 : rev = a.Revision := hrev
      unfold predecessorsLoop
      rw [if_pos hrev0]
    | Nat.succ t =>
      have ht : t < rest.length := by
        simp at hi
        omega
      have hrev' : rev = rest[t].Revision := hrev
      have halt : a.Revision < rest[t].Revision :=
        (List.pairwise_cons.mp hs).1 _ (List.getElem_mem ht)
      unfold predecessorsLoop
      rw [if_neg (by omega), if_neg (by omega),
        ih (List.pairwise_cons.mp hs).2 t ht hrev']

/-- Predecessors of an entry at sorted position i returns i. -/
theorem Predecessors_at (l : List Migration) (m : Migration) (hs : RegSorted l)
    (i : Nat) (hi : i < l.length) (hrev : m.Revision = l[i].Revision) :
    Predecessors l m = .ok i := by
  unfold Predecessors
  rw [if_neg (by omega : ¬ l.length = 0),
    predecessorsLoop_at m.Revision l hs i hi hrev]
  dsimp only
  rw [if_neg (by omega : ¬ i = l.length)]

/-- Successors of an entry at sorted position i returns the count of entries
after it. -/
theorem Successors_at (l : List Migration) (m : Migration) (hs : RegSorted l)
    (i : Nat) (hi : i < l.length) (hrev : m.Revision = l[i].Revision) :
    Successors l m = .ok (l.length - 1 - i) := by
  obtain ⟨h1, h2, h3⟩ := searchIndex_spec l m.Revision hs
  have hidx : searchIdx l m.Revision = i := by
    rcases Nat.lt_trichotomy (searchIdx l m.Revision) i with hlt | heq | hgt
    · have hil : searchIdx l m.Revision < l.length := by omega
      have hge := h3 hil
      have hpw := List.pairwise_iff_getElem.mp hs _ i hil hi hlt
      omega
    · exact heq
    · have := h2 i hi hgt
      omega
  unfold Successors
  rw [hidx, List.getElem?_eq_getElem hi]
  dsimp only
  rw [if_pos hrev.symm]
  by_cases hlast : i + 1 = l.length
  · rw [if_pos hlast]
    have h0 : l.length - 1 - i = 0 := by omega
    rw [h0]
  · rw [if_neg hlast]
    have h0 : l.length - (i + 1) = l.length - 1 - i := by omega
    rw [h0]

/-- With an absent revision, the Predecessors loop either fails on the first
larger entry or runs off the end with the full count. -/
theorem predecessorsLoop_absent (rev : Int) :
    ∀ l : List Migration, rev ∉ l.map Migration.Revision →
      predecessorsLoop rev l = .error (.unregistered rev) ∨
        predecessorsLoop rev l = .ok l.length := by
  intro l
  induction l with
  | nil =>
    intro _
    right
    rfl
  | cons a rest ih =>
    intro habs
    simp only [List.map_cons, List.mem_cons, not_or] at habs
    obtain ⟨hna, habs'⟩ := habs
    by_cases hgt : a.Revision > rev
    · left
      unfold predecessorsLoop
      rw [if_neg hna, if_pos hgt]
    · rcases ih habs' with herr | hok
      · left
        unfold predecessorsLoop
        rw [if_neg hna, if_neg hgt, herr]
      · right
        unfold predecessorsLoop
        rw [if_neg hna, if_neg hgt, hok]
        rfl

/-- Predecessors fails for any unregistered revision (no sortedness needed). -/
theorem Predecessors_absent (l : List Migration) (m : Migration)
    (habs : m.Revision ∉ l.map Migration.Revision) :
    Predecessors l m = .error (.unregistered m.Revision) := by
  unfold Predecessors
  by_cases hlen : l.length = 0
  · rw [if_pos hlen]
  · rw [if_neg hlen]
    rcases predecessorsLoop_absent m.Revision l habs with herr | hok
    · rw [herr]
    · rw [hok]
      dsimp only
      rw [if_pos rfl]
      have hl : l.length - 1 < l.length := by omega
      rw [List.getElem?_eq_getElem hl]
      dsimp only
      have hne : l[l.length - 1].Revision ≠ m.Revision := by
        intro hcon
        exact habs (List.mem_map.mpr ⟨_, List.getElem_mem hl, hcon⟩)
      rw [if_pos hne]

/-- Successors fails for any revision absent from a sorted registry. -/
theorem Successors_absent (l : List Migration) (m : Migration) (hs : RegSorted l)
    (habs : m.Revision ∉ l.map Migration.Revision) :
    Successors l m = .error (.unregistered m.Revision) := by
  obtain ⟨h1, h2, h3⟩ := searchIndex_spec l m.Revision hs
  unfold Successors
  rcases lt_or_eq_of_le h1 with hi | hi
  · rw [List.getElem?_eq_getElem hi]
    dsimp only
    have hne : l[searchIdx l m.Revision].Revision ≠ m.Revision := by
      intro hcon
      exact habs (List.mem_map.mpr ⟨_, List.getElem_mem hi, hcon⟩)
    rw [if_neg hne]
  · rw [List.getElem?_eq_none (le_of_eq hi.symm)]

/-! Concrete fixtures used by witnesses and counterexamples. -/

/-- A concrete descriptor with both sections present. -/
def sampleDescriptor : Descriptor :=
  ⟨.ok ("0002_add_users.sql", 2), .ok "CREATE TABLE users", .ok "DROP TABLE users", .ok ""⟩

/-- A concrete migration of the given revision. -/
def sampleMigration (r : Int) : Migration := ⟨r, "sample", false, 0, 0, sampleDescriptor, false⟩

/-- Registry with revisions 1, 3, 5. -/
def reg135 : List Migration := [sampleMigration 1, sampleMigration 3, sampleMigration 5]

/-- Registry with revisions 1, 2, 4, 5. -/
def reg1245 : List Migration :=
  [sampleMigration 1, sampleMigration 2, sampleMigration 4, sampleMigration 5]

/-- Environment in which every database call succeeds. -/
def allSuccessEnv : DBEnv := ⟨none, fun _ _ => .success, none, none, 12345⟩

/-- Environment in which every exec fails, and the rollback would fail too. -/
def bodyFailEnv : DBEnv := ⟨none, fun _ _ => .failure "boom", none, some "rollback broke", 7⟩

/-- Environment in which only the bookkeeping statements fail. -/
def statusFailEnv : DBEnv :=
  ⟨none, fun s _ => if s = upStatusSQL || s = downStatusSQL then .failure "boom" else .success,
    none, none, 7⟩

/-- Environment in which every exec panics. -/
def panicEnv : DBEnv := ⟨none, fun _ _ => .panics "blown fuse", none, none, 7⟩

/-- Open environment in which the file read and descriptor build succeed. -/
def goodOpenEnv : OpenEnv := ⟨.ok (), .ok sampleDescriptor⟩

/-- A descriptor blob whose recovered source identifier is empty. -/
def headerlessDescriptor : Descriptor := ⟨.ok ("", 0), .error "x", .error "x", .error "x"⟩

/-- A descriptor blob whose recovered source identifier does not match the
filename grammar. -/
def badNameDescriptor : Descriptor := ⟨.ok ("foo.txt", 0), .error "x", .error "x", .error "x"⟩

/-! The claims. -/

/-- C1: the claim states that a successful Down of a migration with
revision > 0 updates, inside the same transaction, the bookkeeping row whose
revision equals the migration's revision.  The code cannot do this: the only
bookkeeping statement a successful Down issues is downStatusSQL, whose text
references positional placeholder 3 while only two arguments (false and the
revision) are bound, so no argument is ever bound to the WHERE row-matching
parameter — the revision rides in argument position 2, which the statement
never references. -/
theorem down_bookkeeping_miswired :
    (Down (sampleMigration 2) allSuccessEnv).result = .ok () ∧
    (Down (sampleMigration 2) allSuccessEnv).stmts =
      [("DROP TABLE users", []), (downStatusSQL, downStatusArgs 2)] ∧
    boundRevisionParam downStatusSQL (downStatusArgs 2) = none ∧
    maxPlaceholder downStatusSQL = 3 ∧
    (downStatusArgs 2).length = 2 ∧
    boundRevisionParam upStatusSQL (upStatusArgs 12345 2) = some (.vInt 2) :=
  ⟨rfl, rfl, rfl, rfl, rfl, rfl⟩

/-- C2: a descriptor blob whose recovered identifier is empty is rejected by
RegisterDescriptor with the header-missing error, as claimed; but a blob whose
non-empty identifier does not match the filename grammar makes
RegisterDescriptor panic (parseFilename indexes the nil result of
FindStringSubmatch) instead of returning a filename-parse error. -/
theorem registerDescriptor_bad_identifier :
    RegisterDescriptor [] headerlessDescriptor = .error .headerMissing ∧
    RegisterDescriptor [] badNameDescriptor =
      .panicked "runtime error: index out of range" :=
  ⟨rfl, rfl⟩

/-- C3: when executing the direction's SQL body or the bookkeeping update
fails during Up or Down, the transaction ends rolled back, the execution
error wrapped with the migration's revision is returned, and the rollback's
own error is never consulted (the call's outcome is unchanged under any value
of it). -/
theorem exec_failure_rolls_back (m : Migration) (env : DBEnv)
    (bodySQL cause : String) (r : Option String) :
    (env.beginFails = none → m.descriptor.up = .ok bodySQL →
      env.exec bodySQL [] = .failure cause →
        Up m env = ⟨.error (.execFailure .up m.Revision cause), .rolledBack,
          [(bodySQL, [])], m⟩) ∧
    (env.beginFails = none → m.descriptor.up = .ok bodySQL →
      env.exec bodySQL [] = .success → m.Revision > 0 →
      env.exec upStatusSQL (upStatusArgs env.now m.Revision) = .failure cause →
        Up m env = ⟨.error (.statusUpdateFailure m.Revision cause), .rolledBack,
          [(bodySQL, []), (upStatusSQL, upStatusArgs env.now m.Revision)], m⟩) ∧
    (env.beginFails = none → m.descriptor.down = .ok bodySQL →
      env.exec bodySQL [] = .failure cause →
        Down m env = ⟨.error (.execFailure .down m.Revision cause), .rolledBack,
          [(bodySQL, [])], m⟩) ∧
    (env.beginFails = none → m.descriptor.down = .ok bodySQL →
      env.exec bodySQL [] = .success → m.Revision > 0 →
      env.exec downStatusSQL (downStatusArgs m.Revision) = .failure cause →
        Down m env = ⟨.error (.statusUpdateFailure m.Revision cause), .rolledBack,
          [(bodySQL, []), (downStatusSQL, downStatusArgs m.Revision)], m⟩) ∧
    (Up m (setRollbackFails env r) = Up m env ∧
      Down m (setRollbackFails env r) = Down m env) := by
  refine ⟨?_, ?_, ?_, ?_, rfl, rfl⟩
  · intro hb hup hexec
    simp [Up, upTx, hb, hup, hexec]
  · intro hb hup hexec hpos hstat
    simp [Up, upTx, hb, hup, hexec, hpos, hstat]
  · intro hb hdn hexec
    simp [Down, downTx, hb, hdn, hexec]
  · intro hb hdn hexec hpos hstat
    simp [Down, downTx, hb, hdn, hexec, hpos, hstat]

/-- Witness for C3 at concrete inputs: a failing up body and a failing down
bookkeeping update, both with revision 2. -/
theorem exec_failure_rolls_back_witness :
    Up (sampleMigration 2) bodyFailEnv =
      ⟨.error (.execFailure .up 2 "boom"), .rolledBack,
        [("CREATE TABLE users", [])], sampleMigration 2⟩ ∧
    Down (sampleMigration 2) statusFailEnv =
      ⟨.error (.statusUpdateFailure 2 "boom"), .rolledBack,
        [("DROP TABLE users", []), (downStatusSQL, downStatusArgs 2)], sampleMigration 2⟩ :=
  ⟨(exec_failure_rolls_back (sampleMigration 2) bodyFailEnv
      "CREATE TABLE users" "boom" none).1 rfl rfl rfl,
    (exec_failure_rolls_back (sampleMigration 2) statusFailEnv
      "DROP TABLE users" "boom" none).2.2.2.1 rfl rfl rfl (by decide) rfl⟩

/-- C4: a successful Up of an application migration executes the up SQL and,
within the same transaction, the bookkeeping update that binds active to
true, applied to the current UTC time, and the row-matching revision
parameter to this migration's revision; a migration with revision zero
executes only its SQL body, with no bookkeeping update, in both Up and Down. -/
theorem up_bookkeeping_and_revision_zero (m : Migration) (env : DBEnv)
    (bodySQL : String) :
    (env.beginFails = none → env.commitFails = none → m.Revision > 0 →
      m.descriptor.up = .ok bodySQL → env.exec bodySQL [] = .success →
      env.exec upStatusSQL (upStatusArgs env.now m.Revision) = .success →
        Up m env = ⟨.ok (), .committed,
          [(bodySQL, []), (upStatusSQL, upStatusArgs env.now m.Revision)], m⟩) ∧
    (paramBinding (upStatusArgs env.now m.Revision) 1 = some (.vBool true) ∧
      paramBinding (upStatusArgs env.now m.Revision) 2 = some (.vTime env.now) ∧
      boundRevisionParam upStatusSQL (upStatusArgs env.now m.Revision) =
        some (.vInt m.Revision) ∧
      maxPlaceholder upStatusSQL = (upStatusArgs env.now m.Revision).length) ∧
    (env.beginFails = none → env.commitFails = none → m.Revision = 0 →
      m.descriptor.up = .ok bodySQL → env.exec bodySQL [] = .success →
        Up m env = ⟨.ok (), .committed, [(bodySQL, [])], m⟩) ∧
    (env.beginFails = none → env.commitFails = none → m.Revision = 0 →
      m.descriptor.down = .ok bodySQL → env.exec bodySQL [] = .success →
        Down m env = ⟨.ok (), .committed, [(bodySQL, [])], m⟩) := by
  refine ⟨?_, ⟨rfl, rfl, rfl, rfl⟩, ?_, ?_⟩
  · intro hb hc hpos hup hexec hstat
    simp [Up, upTx, hb, hc, hpos, hup, hexec, hstat]
  · intro hb hc hzero hup hexec
    simp [Up, upTx, hb, hc, hzero, hup, hexec]
  · intro hb hc hzero hdn hexec
    simp [Down, downTx, hb, hc, hzero, hdn, hexec]

/-- Witness for C4 at concrete inputs: revision 2 succeeds with the
bookkeeping statement, revision 0 without it. -/
theorem up_bookkeeping_and_revision_zero_witness :
    Up (sampleMigration 2) allSuccessEnv =
      ⟨.ok (), .committed,
        [("CREATE TABLE users", []), (upStatusSQL, upStatusArgs 12345 2)],
        sampleMigration 2⟩ ∧
    Up (sampleMigration 0) allSuccessEnv =
      ⟨.ok (), .committed, [("CREATE TABLE users", [])], sampleMigration 0⟩ ∧
    Down (sampleMigration 0) allSuccessEnv =
      ⟨.ok (), .committed, [("DROP TABLE users", [])], sampleMigration 0⟩ :=
  ⟨(up_bookkeeping_and_revision_zero (sampleMigration 2) allSuccessEnv
      "CREATE TABLE users").1 rfl rfl (by decide) rfl rfl rfl,
    (up_bookkeeping_and_revision_zero (sampleMigration 0) allSuccessEnv
      "CREATE TABLE users").2.2.1 rfl rfl rfl rfl rfl,
    (up_bookkeeping_and_revision_zero (sampleMigration 0) allSuccessEnv
      "DROP TABLE users").2.2.2 rfl rfl rfl rfl rfl⟩

/-- C9: whenever an Up or Down call ends in a propagating panic, the
transaction it opened was rolled back before the panic escaped. -/
theorem panic_rolls_back (m : Migration) (env : DBEnv) (p : String) :
    ((Up m env).result = .panicked p → (Up m env).tx = .rolledBack) ∧
    ((Down m env).result = .panicked p → (Down m env).tx = .rolledBack) := by
  constructor
  · cases hb : env.beginFails with
    | some cause => simp [Up, hb]
    | none =>
      cases hr : (upTx m env).result with
      | panicked q => simp [Up, hb, hr]
      | error e => simp [Up, hb, hr]
      | ok v =>
        cases hc : env.commitFails with
        | some cause => simp [Up, hb, hr, hc]
        | none => simp [Up, hb, hr, hc]
  · cases hb : env.beginFails with
    | some cause => simp [Down, hb]
    | none =>
      cases hr : (downTx m env).result with
      | panicked q => simp [Down, hb, hr]
      | error e => simp [Down, hb, hr]
      | ok v =>
        cases hc : env.commitFails with
        | some cause => simp [Down, hb, hr, hc]
        | none => simp [Down, hb, hr, hc]

/-- Witness for C9: a concrete panicking exec, in both directions. -/
theorem panic_rolls_back_witness :
    (Up (sampleMigration 2) panicEnv).result = .panicked "blown fuse" ∧
    (Up (sampleMigration 2) panicEnv).tx = .rolledBack ∧
    (Down (sampleMigration 2) panicEnv).result = .panicked "blown fuse" ∧
    (Down (sampleMigration 2) panicEnv).tx = .rolledBack :=
  ⟨rfl, (panic_rolls_back (sampleMigration 2) panicEnv "blown fuse").1 rfl,
    rfl, (panic_rolls_back (sampleMigration 2) panicEnv "blown fuse").2 rfl⟩

/-- C10: Up and Down never write to the receiver: the migration record after
any call, whatever the outcome, is the one passed in, so success is recorded
only in the database bookkeeping row, never in the in-memory fields. -/
theorem up_down_frame (m : Migration) (env : DBEnv) :
    (Up m env).migration = m ∧ (Down m env).migration = m := by
  constructor
  · cases hb : env.beginFails with
    | some cause => simp [Up, hb]
    | none =>
      cases hr : (upTx m env).result with
      | panicked q => simp [Up, hb, hr]
      | error e => simp [Up, hb, hr]
      | ok v =>
        cases hc : env.commitFails with
        | some cause => simp [Up, hb, hr, hc]
        | none => simp [Up, hb, hr, hc]
  · cases hb : env.beginFails with
    | some cause => simp [Down, hb]
    | none =>
      cases hr : (downTx m env).result with
      | panicked q => simp [Down, hb, hr]
      | error e => simp [Down, hb, hr]
      | ok v =>
        cases hc : env.commitFails with
        | some cause => simp [Down, hb, hr, hc]
        | none => simp [Down, hb, hr, hc]

/-- C5: for a migration whose revision sits at sorted position i among the k
registered entries, Predecessors returns i and Successors returns k - 1 - i,
both without error. -/
theorem ordinal_position_counts (l : List Migration) (m : Migration)
    (i : Nat) (hs : RegSorted l) (hi : i < l.length)
    (hrev : m.Revision = l[i].Revision) :
    Predecessors l m = .ok i ∧ Successors l m = .ok (l.length - 1 - i) :=
  ⟨Predecessors_at l m hs i hi hrev, Successors_at l m hs i hi hrev⟩

/-- Witness for C5 on the registry with revisions 1, 3, 5 at position 1. -/
theorem ordinal_position_counts_witness :
    Predecessors reg135 (sampleMigration 3) = .ok 1 ∧
    Successors reg135 (sampleMigration 3) = .ok 1 :=
  ordinal_position_counts reg135 (sampleMigration 3) 1 (by decide) (by decide) (by decide)

/-- C7: any ordinal query for a revision absent from the registry — empty
registry, below the minimum, inside a gap, or above the maximum — fails with
the unregistered error from both Predecessors and Successors. -/
theorem ordinal_query_unregistered (l : List Migration) (m : Migration)
    (hs : RegSorted l) (habs : m.Revision ∉ l.map Migration.Revision) :
    Predecessors l m = .error (.unregistered m.Revision) ∧
      Successors l m = .error (.unregistered m.Revision) :=
  ⟨Predecessors_absent l m habs, Successors_absent l m hs habs⟩

/-- Witness for C7: empty registry, revision below the minimum, in a gap, and
above the maximum of the registry with revisions 1, 3, 5. -/
theorem ordinal_query_unregistered_witness :
    (Predecessors ([] : List Migration) (sampleMigration 1) = .error (.unregistered 1) ∧
      Successors ([] : List Migration) (sampleMigration 1) = .error (.unregistered 1)) ∧
    (Predecessors reg135 (sampleMigration 0) = .error (.unregistered 0) ∧
      Successors reg135 (sampleMigration 0) = .error (.unregistered 0)) ∧
    (Predecessors reg135 (sampleMigration 4) = .error (.unregistered 4) ∧
      Successors reg135 (sampleMigration 4) = .error (.unregistered 4)) ∧
    (Predecessors reg135 (sampleMigration 6) = .error (.unregistered 6) ∧
      Successors reg135 (sampleMigration 6) = .error (.unregistered 6)) :=
  ⟨ordinal_query_unregistered [] (sampleMigration 1) (by decide) (by decide),
    ordinal_query_unregistered reg135 (sampleMigration 0) (by decide) (by decide),
    ordinal_query_unregistered reg135 (sampleMigration 4) (by decide) (by decide),
    ordinal_query_unregistered reg135 (sampleMigration 6) (by decide) (by decide)⟩

/-- C6: on a sorted registry, registering a present revision fails with the
duplicate-revision error and leaves the registry unchanged, registering an
absent revision succeeds and yields a sorted registry holding exactly the old
entries plus the new one, and any sequence of Register calls from the empty
registry keeps it sorted with no duplicate revisions. -/
theorem register_keeps_sorted_unique :
    (∀ (l : List Migration) (m : Migration), RegSorted l →
      (m.Revision ∈ l.map Migration.Revision →
          Register l m = (some (.duplicateRevision m.Revision), l)) ∧
        (m.Revision ∉ l.map Migration.Revision →
          (Register l m).1 = none ∧ RegSorted (Register l m).2 ∧
            (Register l m).2.Perm (m :: l))) ∧
    (∀ ms : List Migration, RegSorted (registerAll ms)) := by
  refine ⟨?_, registerAll_sorted⟩
  intro l m hs
  refine ⟨fun hmem => Register_duplicate l m hs hmem, fun habs => ?_⟩
  refine ⟨?_, Register_preserves_sorted l m hs, Register_insert_perm l m hs habs⟩
  rw [Register_insert l m hs habs]

/-- Witness for C6: inserting revision 3 into the registry 1, 2, 4, 5, a
duplicate insertion into 1, 3, 5, and an out-of-order registration sequence. -/
theorem register_keeps_sorted_unique_witness :
    ((Register reg1245 (sampleMigration 3)).1 = none ∧
      RegSorted (Register reg1245 (sampleMigration 3)).2 ∧
      (Register reg1245 (sampleMigration 3)).2.Perm (sampleMigration 3 :: reg1245)) ∧
    Register reg135 (sampleMigration 3) = (some (.duplicateRevision 3), reg135) ∧
    RegSorted (registerAll [sampleMigration 5, sampleMigration 1, sampleMigration 3]) :=
  ⟨(register_keeps_sorted_unique.1 reg1245 (sampleMigration 3) (by decide)).2 (by decide),
    (register_keeps_sorted_unique.1 reg135 (sampleMigration 3) (by decide)).1 (by decide),
    register_keeps_sorted_unique.2 [sampleMigration 5, sampleMigration 1, sampleMigration 3]⟩

/-- A successful submatch has a nonempty, all-digit first capture group. -/
theorem fnameSubmatch_digits (s d w : String) (h : fnameSubmatch s = some (d, w)) :
    d.toList ≠ [] ∧ d.toList.all isDigitChar = true := by
  simp only [fnameSubmatch] at h
  split at h
  · exact absurd h (by simp)
  · split at h
    · exact absurd h (by simp)
    · split at h
      · split at h
        · rename_i hempty hsep hbody
          obtain ⟨hd, hw⟩ := Prod.mk.injEq .. ▸ Option.some.injEq .. ▸ h
          rw [← hd]
          constructor
          · intro hcon
            exact hempty (List.isEmpty_iff.mpr hcon)
          · exact List.all_eq_true.mpr fun x hx => List.mem_takeWhile_imp hx
        · exact absurd h (by simp)
      · exact absurd h (by simp)

/-- goAtoi on an in-range digit string yields its value. -/
theorem goAtoi_of_digits (d : String) (hne : d.toList ≠ [])
    (hall : d.toList.all isDigitChar = true)
    (hle : (digitsVal d.toList : Int) ≤ maxInt64) :
    goAtoi d = .ok (digitsVal d.toList : Int) := by
  unfold goAtoi
  rw [if_pos ⟨hne, hall⟩, if_pos hle]

/-- goAtoi on an out-of-range digit string reports the range error. -/
theorem goAtoi_overflow (d : String) (hne : d.toList ≠ [])
    (hall : d.toList.all isDigitChar = true)
    (hgt : maxInt64 < (digitsVal d.toList : Int)) :
    goAtoi d = .error "value out of range" := by
  unfold goAtoi
  rw [if_pos ⟨hne, hall⟩, if_neg (by omega)]

/-- parseFilename on a matching identifier with in-range digits. -/
theorem parseFilename_of_match (s d w : String) (h : fnameSubmatch s = some (d, w))
    (hle : (digitsVal d.toList : Int) ≤ maxInt64) :
    parseFilename s = .ok (replaceUnderscores w, (digitsVal d.toList : Int)) := by
  obtain ⟨hne, hall⟩ := fnameSubmatch_digits s d w h
  unfold parseFilename
  rw [h]
  dsimp only
  rw [goAtoi_of_digits d hne hall hle]

/-- C8 (amended): for every identifier matching the filename grammar whose
digit group fits in a 64-bit signed integer, Open (with the file read and
descriptor construction succeeding) produces a Migration whose revision is
the digit group's value and whose name is the word segment with underscores
replaced by spaces; a matching identifier whose digit group exceeds that range
fails with the numeric-parse error naming the digit group; a non-matching
identifier fails with a format error naming the identifier verbatim. -/
theorem open_parses_identifier (s d w : String) (env : OpenEnv) (desc : Descriptor) :
    (fnameSubmatch s = some (d, w) → (digitsVal d.toList : Int) ≤ maxInt64 →
      env.openFileResult = .ok () → env.newDescriptorResult = .ok desc →
        Open s env = .ok ⟨(digitsVal d.toList : Int), replaceUnderscores w,
          false, 0, 0, desc, false⟩) ∧
    (fnameSubmatch s = some (d, w) → maxInt64 < (digitsVal d.toList : Int) →
        Open s env = .error (.revisionParseError d "value out of range")) ∧
    (fnameSubmatch s = none → Open s env = .error (.formatError s)) := by
  refine ⟨?_, ?_, ?_⟩
  · intro h hle hof hnd
    have hm : fnameMatches s = true := by rw [fnameMatches, h]; rfl
    unfold Open
    rw [hm, if_neg (by simp), parseFilename_of_match s d w h hle]
    dsimp only
    rw [hof]
    dsimp only
    rw [hnd]
  · intro h hgt
    have hm : fnameMatches s = true := by rw [fnameMatches, h]; rfl
    obtain ⟨hne, hall⟩ := fnameSubmatch_digits s d w h
    unfold Open
    rw [hm, if_neg (by simp)]
    unfold parseFilename
    rw [h]
    dsimp only
    rw [goAtoi_overflow d hne hall hgt]
  · intro h
    have hm : fnameMatches s = false := by rw [fnameMatches, h]; rfl
    unfold Open
    rw [hm, if_pos rfl]

/-- C8 counterexample to the claim as stated: this identifier matches the
filename grammar, yet Open fails (the 19-digit group spells 2 to the 63rd,
which strconv.Atoi rejects with a range error) instead of producing a
Migration carrying that revision. -/
theorem open_overflow_counterexample :
    fnameMatches "9223372036854775808_x.sql" = true ∧
    Open "9223372036854775808_x.sql" goodOpenEnv =
      .error (.revisionParseError "9223372036854775808" "value out of range") :=
  ⟨rfl, rfl⟩

/-- Witness for C8 (amended): the in-range identifier from the test data and a
non-matching identifier. -/
theorem open_parses_identifier_witness :
    Open "0001_test_migration.sql" goodOpenEnv =
      .ok ⟨1, "test migration", false, 0, 0, sampleDescriptor, false⟩ ∧
    Open "foo.txt" goodOpenEnv = .error (.formatError "foo.txt") :=
  ⟨(open_parses_identifier "0001_test_migration.sql" "0001" "test_migration"
      goodOpenEnv sampleDescriptor).1 rfl (by decide) rfl rfl,
    (open_parses_identifier "foo.txt" "" "" goodOpenEnv sampleDescriptor).2.2 rfl⟩

end Tidal
